import Mathlib

/-!
Verification of the milaidy message inbound-queueing and hook-dispatch
subsystem: a shallow embedding of the hook registry
(src/src/hooks/registry.ts), the queue configuration types
(src/src/config/types.messages.ts), and the inbound queue controller
described by the specification.
-/

/-! ## Queue configuration types, from src/src/config/types.messages.ts -/

/-- The closed union type QueueMode from src/src/config/types.messages.ts:
"steer" | "followup" | "collect" | "steer-backlog" | "steer+backlog" |
"queue" | "interrupt". -/
inductive QueueMode where
  | steer
  | followup
  | collect
  | steerBacklog
  | steerPlusBacklog
  | queue
  | interrupt
deriving DecidableEq, Fintype, Repr

/-- The string literal each QueueMode constructor denotes in the source union. -/
def QueueMode.toStr : QueueMode → String
  | .steer => "steer"
  | .followup => "followup"
  | .collect => "collect"
  | .steerBacklog => "steer-backlog"
  | .steerPlusBacklog => "steer+backlog"
  | .queue => "queue"
  | .interrupt => "interrupt"

/-- The closed union type QueueDropPolicy from src/src/config/types.messages.ts:
"old" | "new" | "summarize". -/
inductive QueueDropPolicy where
  | old
  | new
  | summarize
deriving DecidableEq, Fintype, Repr

/-- The string literal each QueueDropPolicy constructor denotes in the source union. -/
def QueueDropPolicy.toStr : QueueDropPolicy → String
  | .old => "old"
  | .new => "new"
  | .summarize => "summarize"

/-! ## Hook registry, from src/src/hooks/registry.ts -/

/-- A hook event, from src/src/hooks/types: fields type, action, sessionKey,
timestamp, messages, context. The timestamp (a Date in the source) is a Nat;
messages and context entries are strings. -/
structure HookEvent where
  type : String
  action : String
  sessionKey : String
  timestamp : Nat
  messages : List String
  context : List (String × String)
deriving DecidableEq, Repr

/-- The registry Map of src/src/hooks/registry.ts, a string-keyed insertion
ordered map from event key to the ordered array of handlers, embedded as an
association list. H is the handler type. -/
abbrev Registry (H : Type) : Type := List (String × List H)

/-- Map.get: the value stored under key k, or none. -/
def mapGet {H : Type} (reg : Registry H) (k : String) : Option (List H) :=
  match reg with
  | [] => none
  | p :: rest => if p.1 = k then some p.2 else mapGet rest k

/-- Map.set: replace the value under key k in place, or append a new entry,
matching the insertion-order semantics of a JS Map. -/
def mapSet {H : Type} (reg : Registry H) (k : String) (v : List H) : Registry H :=
  match reg with
  | [] => [(k, v)]
  | p :: rest => if p.1 = k then (k, v) :: rest else p :: mapSet rest k v

/-- The handler array stored for a key, defaulting to empty, as in
"registry.get(eventKey) ?? []". -/
def getHandlers {H : Type} (reg : Registry H) (k : String) : List H :=
  (mapGet reg k).getD []

/-- registerHook from src/src/hooks/registry.ts: fetch the array for the key
(or a fresh empty one), push the handler, store it back. -/
def registerHook {H : Type} (reg : Registry H) (eventKey : String) (handler : H) :
    Registry H :=
  mapSet reg eventKey (getHandlers reg eventKey ++ [handler])

/-- clearHooks from src/src/hooks/registry.ts: registry.clear(). -/
def clearHooks {H : Type} (_ : Registry H) : Registry H := []

/-- The specific dispatch key built by triggerHook: event.type ++ ":" ++ event.action. -/
def specificKey (ev : HookEvent) : String := ev.type ++ ":" ++ ev.action

/-- The general dispatch key built by triggerHook: event.type. -/
def generalKey (ev : HookEvent) : String := ev.type

/-- The local handlers array triggerHook builds before any await: every handler
under the specific key, then every handler under the general key, each paired
with the key it was found under. -/
def resolveHandlers {H : Type} (reg : Registry H) (ev : HookEvent) :
    List (String × H) :=
  (getHandlers reg (specificKey ev)).map (fun h => (specificKey ev, h)) ++
    (getHandlers reg (generalKey ev)).map (fun h => (generalKey ev, h))

/-- A registry mutation that other code may perform while a dispatch is
suspended at an await: registerHook or clearHooks. -/
inductive RegOp (H : Type) where
  | register (key : String) (handler : H)
  | clear

/-- Apply one concurrent registry mutation. -/
def applyOp {H : Type} (reg : Registry H) : RegOp H → Registry H
  | .register k h => registerHook reg k h
  | .clear => clearHooks reg

/-- The dispatch loop of triggerHook over the already-resolved local handlers
list. A handler is modelled by run, which either returns or throws an error of
type E; the try/catch logs the error with the offending key and continues with
the next handler. Each element of ops is the batch of registry mutations other
code performs during the corresponding await; the loop itself never reads the
registry again. Returns the final registry, the invocation trace, and the
logged (key, error) pairs. -/
def runHandlers {H E : Type} (run : H → HookEvent → Except E Unit) (ev : HookEvent) :
    List (String × H) → List (List (RegOp H)) → Registry H →
    Registry H × List H × List (String × E)
  | [], _, reg => (reg, [], [])
  | (k, h) :: rest, ops, reg =>
    let r := run h ev
    let reg1 := (ops.headD []).foldl applyOp reg
    let out := runHandlers run ev rest ops.tail reg1
    match r with
    | Except.ok _ => (out.1, h :: out.2.1, out.2.2)
    | Except.error e => (out.1, h :: out.2.1, (k, e) :: out.2.2)

/-- triggerHook from src/src/hooks/registry.ts: build the local handlers list
from the specific key then the general key, return at once if it is empty,
otherwise invoke each handler sequentially under a try/catch that logs and
continues. ops are the registry mutations interleaved at the awaits. -/
def triggerHook {H E : Type} (run : H → HookEvent → Except E Unit) (ev : HookEvent)
    (ops : List (List (RegOp H))) (reg : Registry H) :
    Registry H × List H × List (String × E) :=
  let handlers := resolveHandlers reg ev
  if handlers.isEmpty then (reg, [], [])
  else runHandlers run ev handlers ops reg

/-! ## Inbound queue controller, modelled from the spec -/

/-- One outcome of submit, from the spec contract: flushed (batch released),
queued (buffered, timer rearmed), or dropped (capacity violation, with a
reason for the adapter). -/
inductive Decision where
  | flushed (batch : List String)
  | queued
  | dropped (reason : String)
deriving DecidableEq, Repr

/-- Per-session queue state: the ordered pending buffer and the inFlight flag.
Messages are strings. The debounce timer is outside the modelled fragment
(the claims consider submissions with no intervening flush). -/
structure SessionState where
  pending : List String
  inFlight : Bool
deriving DecidableEq, Repr

/-- Modelled from the spec: the dropPolicy=old eviction, "evict oldest entries
until at cap". Repeatedly removes the head while the length exceeds cap. -/
def evictOldest (cap : Nat) : List String → List String
  | [] => []
  | x :: xs => if xs.length < cap then x :: xs else evictOldest cap xs

/-- Modelled from the spec: whether a submission in the given mode with the
given inFlight flag takes the buffering path of step 3. collect, followup and
queue always buffer; the steer family buffers when no work is in flight;
interrupt never buffers. -/
def takesBufferPath : QueueMode → Bool → Bool
  | .collect, _ => true
  | .followup, _ => true
  | .queue, _ => true
  | .steer, inF => !inF
  | .steerBacklog, inF => !inF
  | .steerPlusBacklog, inF => !inF
  | .interrupt, _ => false

/-- Modelled from the spec: step 3 of submit, the buffering step. Append the
message to pending; if the result exceeds cap apply the drop policy: old
evicts oldest entries until at cap and reports dropped, new rejects the
incoming message leaving pending untouched and reports dropped, summarize
collapses the prior pending into one synthetic summary entry (produced by the
external summarizer) plus the new message. -/
def submitBuffer (summarizer : List String → String) (cap : Nat)
    (policy : QueueDropPolicy) (pending : List String) (m : String) :
    List String × Decision :=
  let appended := pending ++ [m]
  if appended.length ≤ cap then (appended, Decision.queued)
  else
    match policy with
    | .old => (evictOldest cap appended, Decision.dropped "old")
    | .new => (pending, Decision.dropped "new")
    | .summarize => ([summarizer pending, m], Decision.dropped "summarize")

/-- Modelled from the spec: submit(sessionKey, message, channel) after config
resolution, for one session. The missing source is the Inbound Queue
Controller, which is not part of this repository snapshot; only its
configuration types are. interrupt preempts in-flight work and flushes the new
message immediately as its own batch; buffering modes run the buffering step;
a steer-family submission with work in flight redirects the message into the
in-flight context, a mode-forced immediate release. -/
def submit (summarizer : List String → String) (mode : QueueMode) (cap : Nat)
    (policy : QueueDropPolicy) (st : SessionState) (m : String) :
    SessionState × Decision :=
  match mode with
  | .interrupt => ({ st with inFlight := true }, Decision.flushed [m])
  | _ =>
    if takesBufferPath mode st.inFlight then
      let pd := submitBuffer summarizer cap policy st.pending m
      ({ st with pending := pd.1 }, pd.2)
    else (st, Decision.flushed [m])

/-! ## Concrete scenario inputs -/

/-- An event with the given type and action; the remaining fields do not
participate in dispatch. -/
def mkEvent (t a : String) : HookEvent :=
  { type := t, action := a, sessionKey := "s", timestamp := 0,
    messages := [], context := [] }

/-- A handler semantics in which every handler returns normally. -/
def okRun {H : Type} : H → HookEvent → Except String Unit :=
  fun _ _ => Except.ok ()

/-- A handler semantics in which handler 2 throws "boom" and all others
return normally. -/
def failRun : Nat → HookEvent → Except String Unit :=
  fun h _ => if h = 2 then Except.error "boom" else Except.ok ()

/-- Registry with H1 = 1 registered for "command" and H2 = 2 registered for
"command:new", in that order. -/
def regH1H2 : Registry Nat :=
  registerHook (registerHook [] "command" 1) "command:new" 2

/-- Registry with the same handler 7 registered twice under "evt". -/
def regTwice : Registry Nat :=
  registerHook (registerHook [] "evt" 7) "evt" 7

/-- A registry whose only key is "other". -/
def regOther : Registry Nat := [("other", [5])]

/-- A constant summarizer for concrete runs of submit. -/
def demoSummarizer : List String → String := fun _ => "summary"

/-- Fold a sequence of messages through submit, keeping the session state. -/
def submitSeq (mode : QueueMode) (cap : Nat) (policy : QueueDropPolicy)
    (st : SessionState) (msgs : List String) : SessionState :=
  msgs.foldl (fun s m => (submit demoSummarizer mode cap policy s m).1) st

/-! ## Helper lemmas -/

theorem mapGet_mapSet_self {H : Type} (reg : Registry H) (k : String) (v : List H) :
    mapGet (mapSet reg k v) k = some v := by
  induction reg with
  | nil => simp [mapSet, mapGet]
  | cons p rest ih =>
    by_cases hk : p.1 = k
    · simp [mapSet, mapGet, hk]
    · simp [mapSet, mapGet, hk, ih]

theorem mapGet_mapSet_ne {H : Type} (reg : Registry H) (k k' : String) (v : List H)
    (hne : k' ≠ k) : mapGet (mapSet reg k v) k' = mapGet reg k' := by
  induction reg with
  | nil => simp [mapSet, mapGet, Ne.symm hne]
  | cons p rest ih =>
    by_cases hk : p.1 = k
    · subst hk
      simp [mapSet, mapGet, Ne.symm hne]
    · simp only [mapSet, if_neg hk, mapGet]
      by_cases hk2 : p.1 = k'
      · simp [hk2]
      · simp [hk2, ih]

theorem getHandlers_registerHook_self {H : Type} (reg : Registry H) (k : String) (h : H) :
    getHandlers (registerHook reg k h) k = getHandlers reg k ++ [h] := by
  simp [registerHook, getHandlers, mapGet_mapSet_self]

theorem getHandlers_registerHook_ne {H : Type} (reg : Registry H) (k k' : String) (h : H)
    (hne : k' ≠ k) : getHandlers (registerHook reg k h) k' = getHandlers reg k' := by
  simp [registerHook, getHandlers, mapGet_mapSet_ne reg k k' _ hne]

theorem runHandlers_trace {H E : Type} (run : H → HookEvent → Except E Unit)
    (ev : HookEvent) (hs : List (String × H)) :
    ∀ (ops : List (List (RegOp H))) (reg : Registry H),
      (runHandlers run ev hs ops reg).2.1 = hs.map Prod.snd := by
  induction hs with
  | nil => intro ops reg; rfl
  | cons p rest ih =>
    intro ops reg
    obtain ⟨k, h⟩ := p
    simp only [runHandlers]
    cases run h ev <;> simp [ih]

theorem triggerHook_trace {H E : Type} (run : H → HookEvent → Except E Unit)
    (ev : HookEvent) (ops : List (List (RegOp H))) (reg : Registry H) :
    (triggerHook run ev ops reg).2.1 = (resolveHandlers reg ev).map Prod.snd := by
  unfold triggerHook
  by_cases hempty : (resolveHandlers reg ev).isEmpty
  · rw [List.isEmpty_iff] at hempty
    simp [hempty]
  · simp [hempty, runHandlers_trace]

theorem evictOldest_length {cap : Nat} :
    ∀ {l : List String}, cap ≤ l.length → (evictOldest cap l).length = cap := by
  intro l
  induction l with
  | nil =>
    intro hle
    have hz : cap = 0 := Nat.le_zero.mp hle
    subst hz
    rfl
  | cons x xs ih =>
    intro hle
    by_cases hlt : xs.length < cap
    · simp only [evictOldest, if_pos hlt, List.length_cons]
      simp only [List.length_cons] at hle
      omega
    · have hge : cap ≤ xs.length := Nat.le_of_not_lt hlt
      simp [evictOldest, hlt, ih hge]

theorem evictOldest_isSuffix (cap : Nat) :
    ∀ l : List String, List.IsSuffix (evictOldest cap l) l := by
  intro l
  induction l with
  | nil => simp [evictOldest]
  | cons x xs ih =>
    by_cases hlt : xs.length < cap
    · simp [evictOldest, hlt]
    · simp only [evictOldest, if_neg hlt]
      exact ih.trans (List.suffix_cons x xs)

/-! ## Claim theorems -/

/-- C1: for every registry state and event, triggerHook invokes exactly the
handlers registered under the specific key type:action followed by the
handlers registered under the general key type, each group in registration
order; in particular with H1 = 1 registered for "command" and H2 = 2 for
"command:new", triggering an event of type "command" and action "new" invokes
H2 then H1. -/
theorem c1_triggerHook_dispatch_order :
    (∀ (H E : Type) (run : H → HookEvent → Except E Unit) (ev : HookEvent)
        (ops : List (List (RegOp H))) (reg : Registry H),
      (triggerHook run ev ops reg).2.1 =
        getHandlers reg (specificKey ev) ++ getHandlers reg (generalKey ev)) ∧
    (triggerHook okRun (mkEvent "command" "new") [] regH1H2).2.1 = [2, 1] := by
  constructor
  · intro H E run ev ops reg
    rw [triggerHook_trace]
    simp [resolveHandlers]
  · decide

/-- C2: a throwing handler never changes which handlers triggerHook invokes —
the invocation trace is the same as when every handler returns normally — and
triggerHook itself returns normally; in particular when the specific handler
2 for "command:new" throws "boom", the general handler 1 for "command" still
runs afterwards and the error is only logged. -/
theorem c2_triggerHook_failure_isolation :
    (∀ (H E : Type) (run : H → HookEvent → Except E Unit) (ev : HookEvent)
        (ops : List (List (RegOp H))) (reg : Registry H),
      (triggerHook run ev ops reg).2.1 =
        (triggerHook (fun _ _ => (Except.ok () : Except E Unit)) ev ops reg).2.1) ∧
    triggerHook failRun (mkEvent "command" "new") [] regH1H2 =
      (regH1H2, [2, 1], [("command:new", "boom")]) := by
  constructor
  · intro H E run ev ops reg
    rw [triggerHook_trace, triggerHook_trace]
  · decide

/-- C5: triggerHook resolves its handler list once, at trigger time: the
invocation trace is independent of any registerHook or clearHooks performed
while the dispatch is in progress; in particular clearing the whole registry
after the first handler still lets the second captured handler run. -/
theorem c5_triggerHook_resolves_once :
    (∀ (H E : Type) (run : H → HookEvent → Except E Unit) (ev : HookEvent)
        (ops : List (List (RegOp H))) (reg : Registry H),
      (triggerHook run ev ops reg).2.1 = (triggerHook run ev [] reg).2.1) ∧
    triggerHook okRun (mkEvent "command" "new") [[RegOp.clear]] regH1H2 =
      ([], [2, 1], []) := by
  constructor
  · intro H E run ev ops reg
    rw [triggerHook_trace, triggerHook_trace]
  · decide

/-- C6: registerHook appends to the end of the list for the given key with no
deduplication: registering the same handler twice under the same key stores it
twice, and a matching triggerHook then invokes it twice. -/
theorem c6_registerHook_no_dedup :
    (∀ (H : Type) (reg : Registry H) (k : String) (h : H),
      getHandlers (registerHook (registerHook reg k h) k h) k =
        getHandlers reg k ++ [h, h]) ∧
    (triggerHook okRun (mkEvent "evt" "x") [] regTwice).2.1 = [7, 7] := by
  constructor
  · intro H reg k h
    rw [getHandlers_registerHook_self, getHandlers_registerHook_self]
    simp
  · decide

/-- C7: when neither the specific key nor the general key of an event has any
registered handlers, triggerHook invokes no handler, logs nothing, and leaves
the registry unchanged. -/
theorem c7_triggerHook_no_handlers {H E : Type} (run : H → HookEvent → Except E Unit)
    (ev : HookEvent) (ops : List (List (RegOp H))) (reg : Registry H)
    (hspec : getHandlers reg (specificKey ev) = [])
    (hgen : getHandlers reg (generalKey ev) = []) :
    triggerHook run ev ops reg = (reg, [], []) := by
  unfold triggerHook
  simp [resolveHandlers, hspec, hgen]

theorem c7_triggerHook_no_handlers_witness :
    getHandlers regOther (specificKey (mkEvent "command" "new")) = ([] : List Nat) ∧
    getHandlers regOther (generalKey (mkEvent "command" "new")) = ([] : List Nat) ∧
    triggerHook okRun (mkEvent "command" "new") [] regOther = (regOther, [], []) :=
  ⟨by decide, by decide,
    c7_triggerHook_no_handlers okRun (mkEvent "command" "new") [] regOther
      (by decide) (by decide)⟩

/-- C8: the queue configuration value spaces are closed: every QueueMode is
one of the seven listed values with the seven source string literals, every
QueueDropPolicy is one of the three listed values with the three source string
literals, and the string forms are pairwise distinct. -/
theorem c8_queue_config_value_spaces :
    (∀ m : QueueMode, m = QueueMode.steer ∨ m = QueueMode.followup ∨
      m = QueueMode.collect ∨ m = QueueMode.steerBacklog ∨
      m = QueueMode.steerPlusBacklog ∨ m = QueueMode.queue ∨
      m = QueueMode.interrupt) ∧
    (∀ m : QueueMode, m.toStr ∈
      ["steer", "followup", "collect", "steer-backlog", "steer+backlog",
        "queue", "interrupt"]) ∧
    (∀ d : QueueDropPolicy, d = QueueDropPolicy.old ∨ d = QueueDropPolicy.new ∨
      d = QueueDropPolicy.summarize) ∧
    (∀ d : QueueDropPolicy, d.toStr ∈ ["old", "new", "summarize"]) ∧
    Function.Injective QueueMode.toStr ∧
    Function.Injective QueueDropPolicy.toStr := by
  refine ⟨by decide, by decide, by decide, by decide, ?_, ?_⟩
  · intro m m' hmm
    revert hmm
    revert m m'
    decide
  · intro d d' hdd
    revert hdd
    revert d d'
    decide

/-- C9: registerHook is local to its key: for every other key, the stored
handler list (including its absence) is unchanged in content and order. -/
theorem c9_registerHook_frame {H : Type} (reg : Registry H) (k k' : String) (h : H)
    (hne : k' ≠ k) :
    mapGet (registerHook reg k h) k' = mapGet reg k' := by
  simp [registerHook, mapGet_mapSet_ne reg k k' _ hne]

theorem c9_registerHook_frame_witness :
    "other" ≠ "command" ∧
    mapGet (registerHook regOther "command" (9 : Nat)) "other" = mapGet regOther "other" :=
  ⟨by decide, c9_registerHook_frame regOther "command" "other" 9 (by decide)⟩

/-- C10: the key namespace does not separate specific from general keys: a
handler registered under a key of the form t ++ ":" ++ a is invoked as a
specific handler for every event of type t and action a, and as a general
handler for every event whose type is the full string t ++ ":" ++ a, whatever
that event action is. -/
theorem c10_colon_key_dual_role {H E : Type} (run : H → HookEvent → Except E Unit)
    (reg : Registry H) (h : H) (t a : String) (ev1 ev2 : HookEvent)
    (ops1 ops2 : List (List (RegOp H)))
    (h1t : ev1.type = t) (h1a : ev1.action = a) (h2t : ev2.type = t ++ ":" ++ a) :
    h ∈ (triggerHook run ev1 ops1 (registerHook reg (t ++ ":" ++ a) h)).2.1 ∧
    h ∈ (triggerHook run ev2 ops2 (registerHook reg (t ++ ":" ++ a) h)).2.1 := by
  constructor
  · rw [triggerHook_trace]
    have hkey : specificKey ev1 = t ++ ":" ++ a := by
      simp [specificKey, h1t, h1a]
    simp [resolveHandlers, hkey, getHandlers_registerHook_self]
  · rw [triggerHook_trace]
    have hkey : generalKey ev2 = t ++ ":" ++ a := by
      simp [generalKey, h2t]
    simp [resolveHandlers, hkey, getHandlers_registerHook_self]

theorem c10_colon_key_dual_role_witness :
    (mkEvent "t" "a").type = "t" ∧ (mkEvent "t" "a").action = "a" ∧
    (mkEvent "t:a" "z").type = "t" ++ ":" ++ "a" ∧
    (7 ∈ (triggerHook okRun (mkEvent "t" "a") []
        (registerHook [] ("t" ++ ":" ++ "a") 7)).2.1 ∧
      7 ∈ (triggerHook okRun (mkEvent "t:a" "z") []
        (registerHook [] ("t" ++ ":" ++ "a") 7)).2.1) :=
  ⟨by decide, by decide, by decide,
    c10_colon_key_dual_role okRun [] 7 "t" "a" (mkEvent "t" "a") (mkEvent "t:a" "z")
      [] [] (by decide) (by decide) (by decide)⟩

/-- C3: with mode=queue, cap=3, dropPolicy=old, submitting A, B, C, D in
sequence with no intervening flush leaves pending = [B, C, D]; in general,
whenever a dropPolicy=old submission in queue mode would exceed cap, after
eviction pending has exactly cap elements and is a suffix of the submitted
sequence, i.e. the most recently submitted cap messages in submission order. -/
theorem c3_submit_dropOld_keeps_newest :
    (submitSeq QueueMode.queue 3 QueueDropPolicy.old ⟨[], false⟩
        ["A", "B", "C", "D"]).pending = ["B", "C", "D"] ∧
    (∀ (summarizer : List String → String) (st : SessionState) (m : String) (cap : Nat),
      cap < st.pending.length + 1 →
      (submit summarizer QueueMode.queue cap QueueDropPolicy.old st m).1.pending.length
          = cap ∧
        List.IsSuffix
          (submit summarizer QueueMode.queue cap QueueDropPolicy.old st m).1.pending
          (st.pending ++ [m])) := by
  constructor
  · decide
  · intro summarizer st m cap hcap
    have hnotle : ¬ (st.pending ++ [m]).length ≤ cap := by
      simp only [List.length_append, List.length_cons, List.length_nil]
      omega
    have hle : cap ≤ (st.pending ++ [m]).length := by
      simp only [List.length_append, List.length_cons, List.length_nil]
      omega
    constructor
    · simp only [submit, takesBufferPath, if_pos rfl, submitBuffer, if_neg hnotle]
      exact evictOldest_length hle
    · simp only [submit, takesBufferPath, if_pos rfl, submitBuffer, if_neg hnotle]
      exact evictOldest_isSuffix cap (st.pending ++ [m])

theorem c3_submit_dropOld_keeps_newest_witness :
    1 < (SessionState.mk ["x"] false).pending.length + 1 ∧
    ((submit demoSummarizer QueueMode.queue 1 QueueDropPolicy.old
        (SessionState.mk ["x"] false) "y").1.pending.length = 1 ∧
      List.IsSuffix
        (submit demoSummarizer QueueMode.queue 1 QueueDropPolicy.old
          (SessionState.mk ["x"] false) "y").1.pending
        ((SessionState.mk ["x"] false).pending ++ ["y"])) :=
  ⟨by decide,
    c3_submit_dropOld_keeps_newest.2 demoSummarizer (SessionState.mk ["x"] false) "y" 1
      (by decide)⟩

/-- C4: whenever a submission takes the buffering path and appending would
exceed cap under dropPolicy=new, submit reports a dropped Decision, does not
append the incoming message, and leaves the session state entirely unchanged. -/
theorem c4_submit_dropNew_rejects {summarizer : List String → String}
    {mode : QueueMode} {cap : Nat} (st : SessionState) (m : String)
    (hbuf : takesBufferPath mode st.inFlight = true)
    (hcap : cap < st.pending.length + 1) :
    submit summarizer mode cap QueueDropPolicy.new st m =
      (st, Decision.dropped "new") := by
  obtain ⟨p, f⟩ := st
  have hbuf2 : takesBufferPath mode f = true := hbuf
  have hcap2 : cap < p.length + 1 := hcap
  have hnotle : ¬ p.length + 1 ≤ cap := by omega
  cases mode <;> simp_all [submit, takesBufferPath, submitBuffer] <;>
    rw [if_neg (by omega : ¬ p.length + 1 ≤ cap)] <;> exact ⟨rfl, rfl⟩

theorem c4_submit_dropNew_rejects_witness :
    takesBufferPath QueueMode.queue (SessionState.mk ["x"] false).inFlight = true ∧
    1 < (SessionState.mk ["x"] false).pending.length + 1 ∧
    submit demoSummarizer QueueMode.queue 1 QueueDropPolicy.new
        (SessionState.mk ["x"] false) "y" =
      (SessionState.mk ["x"] false, Decision.dropped "new") :=
  ⟨by decide, by decide,
    c4_submit_dropNew_rejects (SessionState.mk ["x"] false) "y" (by decide) (by decide)⟩
